import Mathlib

/-!
# Verification of the donut/pie chart engine of `CustomPieChart`

Shallow embedding of the chart engine defined in
`src/components/ContactPicker.tsx` (the `CustomPieChart` component):
segment computation, SVG-path building (`createPieSlice`), hit regions
(`getSliceTouchArea` plus the touch-overlay sizing), selection toggling
(`handleSlicePress`) and the center label.

JavaScript numbers are modelled by `JSNum`: an exact rational together
with the non-finite values `NaN`, `+Infinity`, `-Infinity`, with the
IEEE-754 propagation rules for the operations the component uses
(rounding of doubles is not modelled; all claims are about exact values
or about NaN/∞ propagation).

Cartesian points produced by the code are always of the shape
`(centerX + r·cos θ, centerY + r·sin θ)`; they are represented by the
pair `PolarPt` of the radius `r` and the angle `θ` in degrees (e.g. the
code's literal point `(centerX, centerY - R)` is `⟨R, -90⟩` since
`cos (-90°) = 0` and `sin (-90°) = -1`, and `(centerX, centerY + R)` is
`⟨R, 90⟩`).
-/

namespace PieChart

/-- Model of a JavaScript `number`: an exact rational, or one of the
non-finite values. -/
inductive JSNum where
  | num (q : ℚ)
  | nan
  | inf
  | ninf
  deriving DecidableEq, Repr

namespace JSNum

/-- IEEE negation. -/
def neg : JSNum → JSNum
  | num q => num (-q)
  | nan => nan
  | inf => ninf
  | ninf => inf

/-- IEEE addition: NaN propagates, `∞ + (-∞) = NaN`. -/
def add : JSNum → JSNum → JSNum
  | nan, _ => nan
  | _, nan => nan
  | inf, ninf => nan
  | ninf, inf => nan
  | inf, _ => inf
  | _, inf => inf
  | ninf, _ => ninf
  | _, ninf => ninf
  | num a, num b => num (a + b)

/-- IEEE subtraction, `x - y = x + (-y)`. -/
def sub (x y : JSNum) : JSNum := x.add y.neg

/-- IEEE multiplication: NaN propagates, `∞ · 0 = NaN`. -/
def mul : JSNum → JSNum → JSNum
  | nan, _ => nan
  | _, nan => nan
  | num a, num b => num (a * b)
  | inf, num b => if 0 < b then inf else if b < 0 then ninf else nan
  | num a, inf => if 0 < a then inf else if a < 0 then ninf else nan
  | ninf, num b => if 0 < b then ninf else if b < 0 then inf else nan
  | num a, ninf => if 0 < a then ninf else if a < 0 then inf else nan
  | inf, inf => inf
  | inf, ninf => ninf
  | ninf, inf => ninf
  | ninf, ninf => inf

/-- IEEE division (with the single rational zero standing for `+0`):
NaN propagates, `a / 0` is `±∞` for `a ≠ 0` and NaN for `a = 0`,
`∞ / ∞ = NaN`, finite `/ ∞ = 0`. -/
def div : JSNum → JSNum → JSNum
  | nan, _ => nan
  | _, nan => nan
  | num a, num b =>
      if b = 0 then (if 0 < a then inf else if a < 0 then ninf else nan)
      else num (a / b)
  | num _, inf => num 0
  | num _, ninf => num 0
  | inf, num b => if 0 ≤ b then inf else ninf
  | ninf, num b => if 0 ≤ b then ninf else inf
  | inf, inf => nan
  | inf, ninf => nan
  | ninf, inf => nan
  | ninf, ninf => nan

/-- JavaScript `>=`: any comparison with NaN is `false`. -/
def jsGe : JSNum → JSNum → Bool
  | nan, _ => false
  | _, nan => false
  | inf, _ => true
  | ninf, ninf => true
  | ninf, _ => false
  | num _, inf => false
  | num _, ninf => true
  | num a, num b => a ≥ b

/-- JavaScript `>`: any comparison with NaN is `false`. -/
def jsGt : JSNum → JSNum → Bool
  | nan, _ => false
  | _, nan => false
  | inf, inf => false
  | inf, _ => true
  | ninf, _ => false
  | num _, inf => false
  | num _, ninf => true
  | num a, num b => a > b

/-- `Math.max` on two arguments: NaN if either argument is NaN. -/
def jsMax (x y : JSNum) : JSNum :=
  match x, y with
  | nan, _ => nan
  | _, nan => nan
  | a, b => if jsGe a b then a else b

/-- `Number.prototype.toFixed(1)`, kept at the value level: round to one
decimal place, ties to the larger value; non-finite values unchanged. -/
def toFixed1 : JSNum → JSNum
  | num q => num (⌊q * 10 + 1 / 2⌋ / 10)
  | x => x

end JSNum

/-- The `PieChartData` input record of `CustomPieChart`. -/
structure PieChartData where
  name : String
  amount : JSNum
  color : String
  deriving DecidableEq, Repr

/-- A point `(centerX + r·cos(θ·π/180), centerY + r·sin(θ·π/180))`,
kept in polar form (radius and angle in degrees, chart-center origin). -/
structure PolarPt where
  r : ℚ
  theta : JSNum
  deriving DecidableEq, Repr

/-- One primitive of an SVG path string: `M`, `A` (with radius,
large-arc-flag, sweep-flag and endpoint), `L`, or `Z`. -/
inductive PathCmd where
  | move (p : PolarPt)
  | arc (r : ℚ) (largeArc : Bool) (sweep : Bool) (p : PolarPt)
  | line (p : PolarPt)
  | close
  deriving DecidableEq, Repr

/-- `total = data.reduce((sum, item) => sum + item.amount, 0)`. -/
def total (data : List PieChartData) : JSNum :=
  data.foldl (fun sum item => sum.add item.amount) (JSNum.num 0)

/-- `createPieSlice(startAngle, endAngle, color, isSelected)` of
`CustomPieChart`, with the component-closure values `radius` and
`innerRadius` passed explicitly; returns the path as a `PathCmd` list
(`color` is received and ignored, as in the source). -/
def createPieSlice (radius innerRadius : ℚ) (startAngle endAngle : JSNum)
    (color : String) (isSelected : Bool) : List PathCmd :=
  let currentRadius : ℚ := if isSelected then radius + 8 else radius
  let angleDiff := endAngle.sub startAngle
  if angleDiff.jsGe (JSNum.num (3599 / 10)) then
    -- two outer semicircles (sweep 1) then two inner semicircles (sweep 0)
    [ PathCmd.move ⟨currentRadius, JSNum.num (-90)⟩,
      PathCmd.arc currentRadius true true ⟨currentRadius, JSNum.num 90⟩,
      PathCmd.arc currentRadius true true ⟨currentRadius, JSNum.num (-90)⟩,
      PathCmd.move ⟨innerRadius, JSNum.num (-90)⟩,
      PathCmd.arc innerRadius true false ⟨innerRadius, JSNum.num 90⟩,
      PathCmd.arc innerRadius true false ⟨innerRadius, JSNum.num (-90)⟩,
      PathCmd.close ]
  else
    let largeArcFlag := angleDiff.jsGt (JSNum.num 180)
    [ PathCmd.move ⟨currentRadius, startAngle⟩,
      PathCmd.arc currentRadius largeArcFlag true ⟨currentRadius, endAngle⟩,
      PathCmd.line ⟨innerRadius, endAngle⟩,
      PathCmd.arc innerRadius largeArcFlag false ⟨innerRadius, startAngle⟩,
      PathCmd.close ]

/-- `getSliceTouchArea(startAngle, endAngle)`: the point at the slice's
mid angle at radius `(radius + innerRadius) / 2`. -/
def getSliceTouchArea (radius innerRadius : ℚ) (startAngle endAngle : JSNum) :
    PolarPt :=
  let midAngle := (startAngle.add endAngle).div (JSNum.num 2)
  let touchRadius : ℚ := (radius + innerRadius) / 2
  ⟨touchRadius, midAngle⟩

/-- The selection update of `handleSlicePress`:
`setSelectedIndex(selectedIndex === index ? null : index)`. -/
def handleSlicePress (selectedIndex : Option ℕ) (index : ℕ) : Option ℕ :=
  if selectedIndex = some index then none else some index

/-- One element of the component's `slicesData` array. -/
structure SliceData where
  item : PieChartData
  index : ℕ
  pathData : List PathCmd
  isSelected : Bool
  startAngle : JSNum
  endAngle : JSNum
  touchArea : PolarPt
  deriving DecidableEq, Repr

/-- The body of `data.map((item, index) => …)` building `slicesData`,
with the mutable `currentAngle` threaded explicitly (`i` is the running
index, `cur` the running angle). -/
def slicesAux (t : JSNum) (radius innerRadius : ℚ) (sel : Option ℕ) :
    ℕ → JSNum → List PieChartData → List SliceData
  | _, _, [] => []
  | i, cur, item :: rest =>
      let percentage := item.amount.div t
      let angle := percentage.mul (JSNum.num 360)
      let startAngle := cur
      let endAngle := cur.add angle
      let isSelected : Bool := sel = some i
      let pathData := createPieSlice radius innerRadius startAngle endAngle
        item.color isSelected
      let touchArea := getSliceTouchArea radius innerRadius startAngle endAngle
      ⟨item, i, pathData, isSelected, startAngle, endAngle, touchArea⟩ ::
        slicesAux t radius innerRadius sel (i + 1) endAngle rest

/-- `slicesData` of `CustomPieChart`: `radius = size/2 - 10`,
`innerRadius = radius * 0.55`, first start angle `-90`. -/
def slicesData (size : ℚ) (sel : Option ℕ) (data : List PieChartData) :
    List SliceData :=
  slicesAux (total data) (size / 2 - 10) ((size / 2 - 10) * (11 / 20)) sel
    0 (JSNum.num (-90)) data

/-- Rendered attributes of one `<Path>` element of the component. -/
structure RenderedSlice where
  pathData : List PathCmd
  fill : String
  stroke : String
  strokeWidth : ℚ
  opacity : ℚ
  deriving DecidableEq, Repr

/-- The `<Path>` elements rendered by the component:
`opacity={selectedIndex === null || slice.isSelected ? 1 : 0.6}`. -/
def renderSlices (size : ℚ) (sel : Option ℕ) (data : List PieChartData) :
    List RenderedSlice :=
  (slicesData size sel data).map fun slice =>
    ⟨slice.pathData, slice.item.color, "#fff", 2,
      if sel = none ∨ slice.isSelected then 1 else 3 / 5⟩

/-- One invisible touch overlay: its center and its
`touchSize = Math.max(60, (angleSpan / 360) * size)`. -/
structure HitRegion where
  center : PolarPt
  size : JSNum
  deriving DecidableEq, Repr

/-- The touch overlays rendered by the component, one per slice. -/
def hitRegions (size : ℚ) (sel : Option ℕ) (data : List PieChartData) :
    List HitRegion :=
  (slicesData size sel data).map fun slice =>
    let angleSpan := slice.endAngle.sub slice.startAngle
    ⟨slice.touchArea,
      JSNum.jsMax (JSNum.num 60) ((angleSpan.div (JSNum.num 360)).mul
        (JSNum.num size))⟩

/-- `selectedItem = selectedIndex !== null ? data[selectedIndex] : null`
(an out-of-range index reads as `undefined`, i.e. `none`). -/
def selectedItem (data : List PieChartData) (sel : Option ℕ) :
    Option PieChartData :=
  sel.bind fun i => data[i]?

/-- The center-label payload. -/
inductive CenterLabel where
  | aggregate (line1 line2 : String)
  | detail (name : String) (amount : JSNum) (pctOneDecimal : JSNum)
  deriving DecidableEq, Repr

/-- The center label rendered by the component: the fixed
`Total` / `Expenses` caption when nothing is selected, otherwise the
selected item's name, its amount (shown as a ₹-prefixed `en-IN`
localized string of this value) and
`((selectedItem.amount / total) * 100).toFixed(1)`. -/
def centerLabel (data : List PieChartData) (sel : Option ℕ) : CenterLabel :=
  match selectedItem data sel with
  | some item =>
      CenterLabel.detail item.name item.amount
        (JSNum.toFixed1 ((item.amount.div (total data)).mul (JSNum.num 100)))
  | none => CenterLabel.aggregate "Total" "Expenses"

/-- Sum of the angular spans of a slice list, in JS arithmetic. -/
def spanSum (slices : List SliceData) : JSNum :=
  slices.foldl (fun acc s => acc.add (s.endAngle.sub s.startAngle))
    (JSNum.num 0)

/-- Rational-level mirror of the angle accumulation of `slicesData`
(used only to reason about runs on finite amounts). -/
def anglePairs (T : ℚ) : ℚ → List ℚ → List (ℚ × ℚ)
  | _, [] => []
  | c, q :: rest => (c, c + q / T * 360) :: anglePairs T (c + q / T * 360) rest



namespace JSNum

@[simp] theorem add_num (a b : ℚ) : (num a).add (num b) = num (a + b) := rfl

@[simp] theorem sub_num (a b : ℚ) : (num a).sub (num b) = num (a - b) := by
  show num (a + -b) = num (a - b)
  rw [← sub_eq_add_neg]

@[simp] theorem mul_num (a b : ℚ) : (num a).mul (num b) = num (a * b) := rfl

@[simp] theorem div_num (a b : ℚ) (hb : b ≠ 0) :
    (num a).div (num b) = num (a / b) := by
  simp [div, hb]

@[simp] theorem add_nan (x : JSNum) : x.add nan = nan := by cases x <;> rfl

@[simp] theorem nan_add (x : JSNum) : nan.add x = nan := by cases x <;> rfl

@[simp] theorem div_nan (x : JSNum) : x.div nan = nan := by cases x <;> rfl

@[simp] theorem nan_mul (x : JSNum) : nan.mul x = nan := by cases x <;> rfl

@[simp] theorem jsGe_num (a b : ℚ) : (num a).jsGe (num b) = decide (a ≥ b) := rfl

@[simp] theorem jsGt_num (a b : ℚ) : (num a).jsGt (num b) = decide (a > b) := rfl

theorem jsMax_num (a b : ℚ) :
    jsMax (num a) (num b) = num (if a ≥ b then a else b) := by
  by_cases h : a ≥ b <;> simp [jsMax, h]

theorem div_num360 (a : ℚ) : (num a).div (num 360) = num (a / 360) :=
  div_num a 360 (by norm_num)

end JSNum



theorem slicesAux_length (t : JSNum) (r ir : ℚ) (sel : Option ℕ) :
    ∀ (l : List PieChartData) (i : ℕ) (c : JSNum),
      (slicesAux t r ir sel i c l).length = l.length := by
  intro l
  induction l with
  | nil => intro i c; rfl
  | cons item rest ih => intro i c; simp [slicesAux, ih]

theorem foldl_add_nan_acc (l : List PieChartData) :
    l.foldl (fun s it => s.add it.amount) JSNum.nan = JSNum.nan := by
  induction l with
  | nil => rfl
  | cons item rest ih => simp only [List.foldl_cons, JSNum.nan_add, ih]

theorem foldl_add_mem_nan :
    ∀ (l : List PieChartData) (acc : JSNum),
      (∃ it ∈ l, it.amount = JSNum.nan) →
      l.foldl (fun s it => s.add it.amount) acc = JSNum.nan := by
  intro l
  induction l with
  | nil =>
      rintro acc ⟨it, hmem, _⟩
      cases hmem
  | cons item rest ih =>
      rintro acc ⟨it, hmem, hnan⟩
      rcases List.mem_cons.mp hmem with h | h
      · subst h
        rw [List.foldl_cons, hnan, JSNum.add_nan]
        exact foldl_add_nan_acc rest
      · rw [List.foldl_cons]
        exact ih _ ⟨it, h, hnan⟩

theorem slicesAux_nan (r ir : ℚ) (sel : Option ℕ) :
    ∀ (l : List PieChartData) (i : ℕ) (c : JSNum) (s : SliceData),
      s ∈ slicesAux JSNum.nan r ir sel i c l → s.endAngle = JSNum.nan := by
  intro l
  induction l with
  | nil => intro i c s h; cases h
  | cons item rest ih =>
      intro i c s h
      rw [slicesAux] at h
      rcases List.mem_cons.mp h with h | h
      · subst h
        simp [JSNum.div_nan, JSNum.nan_mul, JSNum.add_nan]
      · exact ih _ _ _ h

/-- C1 counterexample: a nonempty all-zero input (total = 0) does NOT
produce an empty segment list — `slicesData` has no `total <= 0` guard
and maps every input point to a segment. -/
theorem zero_total_counterexample :
    slicesData 240 none [⟨"A", JSNum.num 0, "red"⟩] ≠ [] := by decide

/-- C1 (amended): the segment computation returns `[]` exactly for empty
input; for any input (in particular a nonempty all-zero one) it returns
one segment per data point — there is no `total <= 0` guard. -/
theorem compute_length_no_total_guard (size : ℚ) (sel : Option ℕ)
    (data : List PieChartData) :
    (slicesData size sel data).length = data.length ∧
    slicesData size sel ([] : List PieChartData) = [] :=
  ⟨slicesAux_length _ _ _ _ _ _ _, rfl⟩

/-- C2 counterexample: a NaN amount does not contribute zero: the total
differs from the all-zero-replacement run, and the other segment's
angles differ as well (they become NaN instead of matching the run
where the NaN amount is replaced by 0). -/
theorem nan_amount_counterexample :
    total [⟨"A", JSNum.nan, "r"⟩, ⟨"B", JSNum.num 100, "b"⟩] = JSNum.nan ∧
    (slicesData 240 none [⟨"A", JSNum.nan, "r"⟩, ⟨"B", JSNum.num 100, "b"⟩]).map
        (fun s => s.endAngle) = [JSNum.nan, JSNum.nan] ∧
    (slicesData 240 none [⟨"A", JSNum.num 0, "r"⟩, ⟨"B", JSNum.num 100, "b"⟩]).map
        (fun s => s.endAngle) = [JSNum.num (-90), JSNum.num 270] ∧
    (slicesData 240 none [⟨"A", JSNum.nan, "r"⟩, ⟨"B", JSNum.num 100, "b"⟩]).map
        (fun s => (s.startAngle, s.endAngle)) ≠
      (slicesData 240 none [⟨"A", JSNum.num 0, "r"⟩, ⟨"B", JSNum.num 100, "b"⟩]).map
        (fun s => (s.startAngle, s.endAngle)) := by
  norm_num [slicesData, slicesAux, total, JSNum.add, JSNum.sub, JSNum.neg,
    JSNum.mul, JSNum.div]
  exact fun h => nomatch h

/-- C2 (amended): a NaN amount propagates: the total becomes NaN and
every segment's end angle (hence every subsequent start angle) becomes
NaN — nothing is clamped to zero. -/
theorem nan_amount_propagates (size : ℚ) (sel : Option ℕ)
    (data : List PieChartData)
    (h : ∃ it ∈ data, it.amount = JSNum.nan) :
    total data = JSNum.nan ∧
    ∀ s ∈ slicesData size sel data, s.endAngle = JSNum.nan := by
  have ht : total data = JSNum.nan := foldl_add_mem_nan data _ h
  refine ⟨ht, fun s hs => ?_⟩
  rw [slicesData, ht] at hs
  exact slicesAux_nan _ _ _ _ _ _ _ hs

theorem nan_amount_propagates_witness :
    (∃ it ∈ ([⟨"A", JSNum.nan, "r"⟩, ⟨"B", JSNum.num 100, "b"⟩] :
        List PieChartData), it.amount = JSNum.nan) ∧
    total [⟨"A", JSNum.nan, "r"⟩, ⟨"B", JSNum.num 100, "b"⟩] = JSNum.nan := by
  have h : ∃ it ∈ ([⟨"A", JSNum.nan, "r"⟩, ⟨"B", JSNum.num 100, "b"⟩] :
      List PieChartData), it.amount = JSNum.nan :=
    ⟨⟨"A", JSNum.nan, "r"⟩, by decide, rfl⟩
  exact ⟨h, (nan_amount_propagates 240 none _ h).1⟩

/-- C7: tapping the already-selected index deselects, tapping any other
index selects it (replacing the prior selection); the selection is a
single optional index, so at most one segment is selected; and the three
concrete toggles of the spec hold. -/
theorem toggle_selection (s : Option ℕ) (i : ℕ) :
    (handleSlicePress s i = none ↔ s = some i) ∧
    (handleSlicePress s i = some i ↔ s ≠ some i) ∧
    handleSlicePress none 2 = some 2 ∧
    handleSlicePress (some 2) 2 = none ∧
    handleSlicePress (some 2) 5 = some 5 := by
  refine ⟨?_, ?_, by decide, by decide, by decide⟩ <;>
    by_cases h : s = some i <;> simp [handleSlicePress, h]

/-- C8: with no selection the center label is the fixed
`Total` / `Expenses` aggregate caption whatever the data is; with a
valid selected index it is exactly that item's name, its amount (the
value shown as a localized currency string) and
`(amount / total * 100)` rounded to one decimal place. -/
theorem center_label_selection (data : List PieChartData) (sel : Option ℕ) :
    (sel = none →
      centerLabel data sel = CenterLabel.aggregate "Total" "Expenses") ∧
    (∀ i item, sel = some i → data[i]? = some item →
      centerLabel data sel =
        CenterLabel.detail item.name item.amount
          (JSNum.toFixed1
            ((item.amount.div (total data)).mul (JSNum.num 100)))) := by
  constructor
  · rintro rfl; rfl
  · rintro i item rfl hit
    simp [centerLabel, selectedItem, hit]


theorem center_label_selection_witness :
    centerLabel [⟨"A", JSNum.num 100, "r"⟩, ⟨"B", JSNum.num 300, "b"⟩] none =
      CenterLabel.aggregate "Total" "Expenses" ∧
    centerLabel [⟨"A", JSNum.num 100, "r"⟩, ⟨"B", JSNum.num 300, "b"⟩]
        (some 1) =
      CenterLabel.detail "B" (JSNum.num 300) (JSNum.num 75) := by
  refine ⟨(center_label_selection _ none).1 rfl, ?_⟩
  have h := (center_label_selection
      [⟨"A", JSNum.num 100, "r"⟩, ⟨"B", JSNum.num 300, "b"⟩] (some 1)).2
      1 ⟨"B", JSNum.num 300, "b"⟩ rfl (by decide)
  rw [h]
  norm_num [total, JSNum.add, JSNum.mul, JSNum.div, JSNum.toFixed1]

/-- C10: a stale selected index that is out of range for the current
data yields no selected item, and the center label falls back to the
aggregate caption, exactly as with no selection. -/
theorem stale_selection_falls_back (data : List PieChartData) (i : ℕ)
    (h : data.length ≤ i) :
    centerLabel data (some i) = CenterLabel.aggregate "Total" "Expenses" ∧
    centerLabel data (some i) = centerLabel data none := by
  have hg : data[i]? = none := List.getElem?_eq_none h
  constructor <;> simp [centerLabel, selectedItem, hg]

theorem stale_selection_falls_back_witness :
    ([⟨"A", JSNum.num 100, "r"⟩] : List PieChartData).length ≤ 3 ∧
    centerLabel [⟨"A", JSNum.num 100, "r"⟩] (some 3) =
      CenterLabel.aggregate "Total" "Expenses" :=
  ⟨by decide, (stale_selection_falls_back _ 3 (by decide)).1⟩

/-- C3: whenever the angular span reaches 359.9 degrees the path builder
returns the closed full-ring path (two opposing outer semicircles swept
clockwise, then two opposing inner semicircles swept in reverse), not
the single-arc wedge; in particular the 100%-slice of
`[{A,100},{B,0}]` gets exactly this non-degenerate ring. -/
theorem full_circle_ring_path (r ir : ℚ) (a b : ℚ) (color : String)
    (isSel : Bool) (h : 3599 / 10 ≤ b - a) :
    createPieSlice r ir (JSNum.num a) (JSNum.num b) color isSel =
      [ PathCmd.move ⟨if isSel then r + 8 else r, JSNum.num (-90)⟩,
        PathCmd.arc (if isSel then r + 8 else r) true true
          ⟨if isSel then r + 8 else r, JSNum.num 90⟩,
        PathCmd.arc (if isSel then r + 8 else r) true true
          ⟨if isSel then r + 8 else r, JSNum.num (-90)⟩,
        PathCmd.move ⟨ir, JSNum.num (-90)⟩,
        PathCmd.arc ir true false ⟨ir, JSNum.num 90⟩,
        PathCmd.arc ir true false ⟨ir, JSNum.num (-90)⟩,
        PathCmd.close ] ∧
    (slicesData 240 none
        [⟨"A", JSNum.num 100, "#f00"⟩, ⟨"B", JSNum.num 0, "#0f0"⟩]).head?.map
        SliceData.pathData =
      some [ PathCmd.move ⟨110, JSNum.num (-90)⟩,
             PathCmd.arc 110 true true ⟨110, JSNum.num 90⟩,
             PathCmd.arc 110 true true ⟨110, JSNum.num (-90)⟩,
             PathCmd.move ⟨121 / 2, JSNum.num (-90)⟩,
             PathCmd.arc (121 / 2) true false ⟨121 / 2, JSNum.num 90⟩,
             PathCmd.arc (121 / 2) true false ⟨121 / 2, JSNum.num (-90)⟩,
             PathCmd.close ] := by
  constructor
  · simp [createPieSlice, ge_iff_le, h]
  · norm_num [slicesData, slicesAux, total, createPieSlice, getSliceTouchArea,
      JSNum.add, JSNum.sub, JSNum.neg, JSNum.mul, JSNum.div, JSNum.jsGe,
      JSNum.jsGt]
    all_goals simp

theorem full_circle_ring_path_witness :
    (3599 / 10 : ℚ) ≤ 270 - (-90) ∧
    createPieSlice 110 (121 / 2) (JSNum.num (-90)) (JSNum.num 270) "#f00"
        false =
      [ PathCmd.move ⟨110, JSNum.num (-90)⟩,
        PathCmd.arc 110 true true ⟨110, JSNum.num 90⟩,
        PathCmd.arc 110 true true ⟨110, JSNum.num (-90)⟩,
        PathCmd.move ⟨121 / 2, JSNum.num (-90)⟩,
        PathCmd.arc (121 / 2) true false ⟨121 / 2, JSNum.num 90⟩,
        PathCmd.arc (121 / 2) true false ⟨121 / 2, JSNum.num (-90)⟩,
        PathCmd.close ] := by
  refine ⟨by norm_num, ?_⟩
  simpa using
    (full_circle_ring_path 110 (121 / 2) (-90) 270 "#f00" false
      (by norm_num)).1

/-- C5: below the 359.9-degree threshold the path builder emits the
wedge: move to the outer point at the start angle, outer arc (sweep
clockwise) to the outer point at the end angle, line to the inner point
at the end angle, inner arc back (reverse sweep) to the inner point at
the start angle, close — and both arcs carry large-arc-flag 1 exactly
when the span exceeds 180 degrees. -/
theorem wedge_path_structure (r ir : ℚ) (a b : ℚ) (color : String)
    (isSel : Bool) (h : b - a < 3599 / 10) :
    createPieSlice r ir (JSNum.num a) (JSNum.num b) color isSel =
      [ PathCmd.move ⟨if isSel then r + 8 else r, JSNum.num a⟩,
        PathCmd.arc (if isSel then r + 8 else r) (decide (180 < b - a)) true
          ⟨if isSel then r + 8 else r, JSNum.num b⟩,
        PathCmd.line ⟨ir, JSNum.num b⟩,
        PathCmd.arc ir (decide (180 < b - a)) false ⟨ir, JSNum.num a⟩,
        PathCmd.close ] ∧
    (decide (180 < b - a) = true ↔ 180 < b - a) := by
  refine ⟨?_, by simp⟩
  simp [createPieSlice, ge_iff_le, not_le.mpr h]

theorem wedge_path_structure_witness :
    (270 : ℚ) - 0 < 3599 / 10 ∧
    createPieSlice 110 (121 / 2) (JSNum.num 0) (JSNum.num 270) "#f00"
        false =
      [ PathCmd.move ⟨110, JSNum.num 0⟩,
        PathCmd.arc 110 true true ⟨110, JSNum.num 270⟩,
        PathCmd.line ⟨121 / 2, JSNum.num 270⟩,
        PathCmd.arc (121 / 2) true false ⟨121 / 2, JSNum.num 0⟩,
        PathCmd.close ] := by
  refine ⟨by norm_num, ?_⟩
  have h := (wedge_path_structure 110 (121 / 2) 0 270 "#f00" false
    (by norm_num)).1
  rw [h]
  norm_num

theorem foldl_add_num :
    ∀ (qs : List ℚ) (l : List PieChartData) (a : ℚ),
      l.map (fun it => it.amount) = qs.map JSNum.num →
      l.foldl (fun s it => s.add it.amount) (JSNum.num a) =
        JSNum.num (a + qs.sum) := by
  intro qs
  induction qs with
  | nil =>
      intro l a h
      cases l with
      | nil => simp
      | cons x xs => simp at h
  | cons q qrest ih =>
      intro l a h
      cases l with
      | nil => simp at h
      | cons x xs =>
          simp only [List.map_cons, List.cons.injEq] at h
          obtain ⟨h1, h2⟩ := h
          rw [List.foldl_cons, h1, JSNum.add_num, ih xs (a + q) h2,
            List.sum_cons]
          ring_nf

theorem total_eq_num (data : List PieChartData) (qs : List ℚ)
    (h : data.map (fun it => it.amount) = qs.map JSNum.num) :
    total data = JSNum.num qs.sum := by
  have := foldl_add_num qs data 0 h
  simpa [total] using this

theorem slicesAux_angles (T : ℚ) (hT : T ≠ 0) (r ir : ℚ) (sel : Option ℕ) :
    ∀ (l : List PieChartData) (qs : List ℚ) (i : ℕ) (c : ℚ),
      l.map (fun it => it.amount) = qs.map JSNum.num →
      (slicesAux (JSNum.num T) r ir sel i (JSNum.num c) l).map
          (fun s => (s.startAngle, s.endAngle)) =
        (anglePairs T c qs).map (fun p => (JSNum.num p.1, JSNum.num p.2)) := by
  intro l
  induction l with
  | nil =>
      intro qs i c h
      cases qs with
      | nil => rfl
      | cons q qrest => simp at h
  | cons item rest ih =>
      intro qs i c h
      cases qs with
      | nil => simp at h
      | cons q qrest =>
          simp only [List.map_cons, List.cons.injEq] at h
          obtain ⟨h1, h2⟩ := h
          have hdiv : (JSNum.num q).div (JSNum.num T) = JSNum.num (q / T) :=
            JSNum.div_num q T hT
          have hacc : (JSNum.num c).add
              ((item.amount.div (JSNum.num T)).mul (JSNum.num 360)) =
              JSNum.num (c + q / T * 360) := by
            rw [h1, hdiv, JSNum.mul_num, JSNum.add_num]
          rw [slicesAux, anglePairs]
          simp only [List.map_cons]
          refine congrArg₂ List.cons ?_ ?_
          · simp [hacc]
          · rw [hacc]
            exact ih qrest (i + 1) (c + q / T * 360) h2

theorem anglePairs_spans_sum (T : ℚ) :
    ∀ (qs : List ℚ) (c : ℚ),
      ((anglePairs T c qs).map (fun p => p.2 - p.1)).sum =
        qs.sum * (360 / T) := by
  intro qs
  induction qs with
  | nil => intro c; simp [anglePairs]
  | cons q qrest ih =>
      intro c
      simp only [anglePairs, List.map_cons, List.sum_cons, List.sum_nil, ih,
        List.map_nil]
      ring

theorem foldl_spans (ps : List (ℚ × ℚ)) : ∀ a : ℚ,
    ps.foldl (fun acc p => acc.add ((JSNum.num p.2).sub (JSNum.num p.1)))
        (JSNum.num a) =
      JSNum.num (a + (ps.map (fun p => p.2 - p.1)).sum) := by
  induction ps with
  | nil => intro a; simp
  | cons p rest ih =>
      intro a
      rw [List.foldl_cons, JSNum.sub_num, JSNum.add_num, ih,
        List.map_cons, List.sum_cons]
      exact congrArg JSNum.num (by ring)

theorem spanSum_eq (segs : List SliceData) (ps : List (ℚ × ℚ))
    (h : segs.map (fun s => (s.startAngle, s.endAngle)) =
      ps.map (fun p => (JSNum.num p.1, JSNum.num p.2))) :
    spanSum segs = JSNum.num ((ps.map (fun p => p.2 - p.1)).sum) := by
  have step1 : spanSum segs =
      (segs.map (fun s => (s.startAngle, s.endAngle))).foldl
        (fun acc p => acc.add (p.2.sub p.1)) (JSNum.num 0) := by
    rw [spanSum, List.foldl_map]
  rw [step1, h, List.foldl_map]
  simpa using foldl_spans ps 0

theorem slicesAux_chain (t : JSNum) (r ir : ℚ) (sel : Option ℕ) :
    ∀ (l : List PieChartData) (i : ℕ) (c : JSNum),
      List.Chain' (fun sPrev sNext => sNext.startAngle = sPrev.endAngle)
        (slicesAux t r ir sel i c l) := by
  intro l
  induction l with
  | nil => intro i c; simp [slicesAux]
  | cons item rest ih =>
      intro i c
      rw [slicesAux]
      refine List.chain'_cons'.mpr ⟨?_, ih (i + 1) _⟩
      intro b hb
      cases rest with
      | nil => simp [slicesAux] at hb
      | cons item2 rest2 =>
          rw [slicesAux] at hb
          simp only [List.head?_cons, Option.mem_def, Option.some.injEq] at hb
          subst hb
          rfl

/-- C4: for a nonempty input with finite amounts summing to a positive
total, the segments are a contiguous partition: the first start angle is
-90, every start angle equals the previous end angle, and the angular
spans sum to 360 (exactly, hence within 1e-6). -/
theorem segments_partition_360 (size : ℚ) (sel : Option ℕ)
    (data : List PieChartData) (qs : List ℚ)
    (hne : data ≠ [])
    (hamt : data.map (fun it => it.amount) = qs.map JSNum.num)
    (hnonneg : ∀ q ∈ qs, 0 ≤ q)
    (hpos : 0 < qs.sum) :
    (slicesData size sel data).head?.map (fun s => s.startAngle) =
      some (JSNum.num (-90)) ∧
    List.Chain' (fun sPrev sNext => sNext.startAngle = sPrev.endAngle)
      (slicesData size sel data) ∧
    ∃ S : ℚ, spanSum (slicesData size sel data) = JSNum.num S ∧
      |S - 360| ≤ 1 / 1000000 := by
  have hT : qs.sum ≠ 0 := ne_of_gt hpos
  have htot : total data = JSNum.num qs.sum := total_eq_num data qs hamt
  have hmap :
      (slicesData size sel data).map (fun s => (s.startAngle, s.endAngle)) =
        (anglePairs qs.sum (-90) qs).map
          (fun p => (JSNum.num p.1, JSNum.num p.2)) := by
    rw [slicesData, htot]
    exact slicesAux_angles qs.sum hT _ _ sel data qs 0 (-90) hamt
  refine ⟨?_, ?_, ?_⟩
  · cases data with
    | nil => exact absurd rfl hne
    | cons item rest =>
        rw [slicesData, slicesAux]
        rfl
  · rw [slicesData]
    exact slicesAux_chain _ _ _ _ _ _ _
  · refine ⟨((anglePairs qs.sum (-90) qs).map (fun p => p.2 - p.1)).sum,
      spanSum_eq _ _ hmap, ?_⟩
    rw [anglePairs_spans_sum]
    rw [mul_div_assoc']  -- qs.sum * 360 / qs.sum
    rw [mul_comm, mul_div_assoc, div_self hT, mul_one]
    norm_num

theorem segments_partition_360_witness :
    (0 : ℚ) < ([100, 300] : List ℚ).sum ∧
    (slicesData 240 none
        [⟨"A", JSNum.num 100, "r"⟩, ⟨"B", JSNum.num 300, "b"⟩]).head?.map
        (fun s => s.startAngle) = some (JSNum.num (-90)) := by
  refine ⟨by norm_num, ?_⟩
  exact (segments_partition_360 240 none
    [⟨"A", JSNum.num 100, "r"⟩, ⟨"B", JSNum.num 300, "b"⟩] [100, 300]
    (by simp) rfl (by norm_num) (by norm_num)).1

theorem slicesAux_get (t : JSNum) (r ir : ℚ) (sel : Option ℕ) :
    ∀ (l : List PieChartData) (i : ℕ) (c : JSNum) (j : ℕ) (s : SliceData),
      (slicesAux t r ir sel i c l)[j]? = some s →
      s.index = i + j ∧
      s.isSelected = decide (sel = some (i + j)) ∧
      s.pathData = createPieSlice r ir s.startAngle s.endAngle s.item.color
        s.isSelected ∧
      s.touchArea = getSliceTouchArea r ir s.startAngle s.endAngle := by
  intro l
  induction l with
  | nil => intro i c j s h; simp [slicesAux] at h
  | cons item rest ih =>
      intro i c j s h
      rw [slicesAux] at h
      cases j with
      | zero =>
          rw [List.getElem?_cons_zero, Option.some.injEq] at h
          subst h
          exact ⟨by simp, by simp, rfl, rfl⟩
      | succ j' =>
          rw [List.getElem?_cons_succ] at h
          obtain ⟨h1, h2, h3, h4⟩ := ih (i + 1) _ j' s h
          have hidx : i + 1 + j' = i + (j' + 1) := by omega
          rw [hidx] at h1 h2
          exact ⟨h1, h2, h3, h4⟩

theorem slicesAux_sel_irrel (t : JSNum) (r ir : ℚ) (sel sel' : Option ℕ) :
    ∀ (l : List PieChartData) (i i' : ℕ) (c : JSNum),
      (slicesAux t r ir sel i c l).map
          (fun s => (s.startAngle, s.endAngle, s.touchArea)) =
        (slicesAux t r ir sel' i' c l).map
          (fun s => (s.startAngle, s.endAngle, s.touchArea)) := by
  intro l
  induction l with
  | nil => intro i i' c; rfl
  | cons item rest ih =>
      intro i i' c
      rw [slicesAux, slicesAux]
      simp only [List.map_cons]
      exact congrArg₂ List.cons rfl (ih (i + 1) (i' + 1) _)

/-- C6: with finite amounts and a nonzero total there is exactly one hit
region per segment; its center is the polar point at the segment's mid
angle `(startAngle + endAngle) / 2` at radius
`(outerRadius + innerRadius) / 2`, its size is
`max(60, angularSpan / 360 * chartDiameter)`, and that size is a finite
value of at least 60. -/
theorem hit_region_per_segment (size : ℚ) (sel : Option ℕ)
    (data : List PieChartData) (qs : List ℚ)
    (hamt : data.map (fun it => it.amount) = qs.map JSNum.num)
    (hT : qs.sum ≠ 0) :
    (hitRegions size sel data).length = (slicesData size sel data).length ∧
    ∀ (j : ℕ) (s : SliceData) (hr : HitRegion),
      (slicesData size sel data)[j]? = some s →
      (hitRegions size sel data)[j]? = some hr →
      hr.center = ⟨((size / 2 - 10) + (size / 2 - 10) * (11 / 20)) / 2,
        (s.startAngle.add s.endAngle).div (JSNum.num 2)⟩ ∧
      hr.size = JSNum.jsMax (JSNum.num 60)
        (((s.endAngle.sub s.startAngle).div (JSNum.num 360)).mul
          (JSNum.num size)) ∧
      ∃ q : ℚ, hr.size = JSNum.num q ∧ 60 ≤ q := by
  have htot : total data = JSNum.num qs.sum := total_eq_num data qs hamt
  have hmap :
      (slicesData size sel data).map (fun s => (s.startAngle, s.endAngle)) =
        (anglePairs qs.sum (-90) qs).map
          (fun p => (JSNum.num p.1, JSNum.num p.2)) := by
    rw [slicesData, htot]
    exact slicesAux_angles qs.sum hT _ _ sel data qs 0 (-90) hamt
  refine ⟨by rw [hitRegions, List.length_map], ?_⟩
  intro j s hr hs hhr
  -- the hit region at j is the image of the slice at j
  rw [hitRegions, List.getElem?_map, hs, Option.map_some'] at hhr
  rw [Option.some.injEq] at hhr
  subst hhr
  -- the slice's angles are finite
  have hsj : ((slicesData size sel data).map
      (fun s => (s.startAngle, s.endAngle)))[j]? =
      some (s.startAngle, s.endAngle) := by
    rw [List.getElem?_map, hs, Option.map_some']
  rw [hmap, List.getElem?_map] at hsj
  obtain ⟨p, hp, hps⟩ : ∃ p, (anglePairs qs.sum (-90) qs)[j]? = some p ∧
      (JSNum.num p.1, JSNum.num p.2) = (s.startAngle, s.endAngle) := by
    cases hq : (anglePairs qs.sum (-90) qs)[j]? with
    | none => rw [hq] at hsj; simp at hsj
    | some p =>
        rw [hq, Option.map_some', Option.some.injEq] at hsj
        exact ⟨p, rfl, hsj⟩
  obtain ⟨hstart, hend⟩ := Prod.mk.injEq _ _ _ _ ▸ hps
  -- the touch area field
  obtain ⟨-, -, -, htouch⟩ := by
    rw [slicesData] at hs
    exact slicesAux_get _ _ _ _ data 0 _ j s hs
  refine ⟨?_, rfl, ?_⟩
  · rw [htouch, getSliceTouchArea]
  · rw [← hstart, ← hend]
    simp only [JSNum.sub_num, JSNum.div_num360, JSNum.mul_num, JSNum.jsMax_num]
    refine ⟨_, rfl, ?_⟩
    by_cases h60 : (60 : ℚ) ≥ (p.2 - p.1) / 360 * size
    · simp [h60]
    · simp only [h60, if_false]
      exact le_of_not_ge h60

theorem hit_region_per_segment_witness :
    (([⟨"A", JSNum.num 100, "r"⟩, ⟨"B", JSNum.num 300, "b"⟩] :
        List PieChartData).map (fun it => it.amount) =
      ([100, 300] : List ℚ).map JSNum.num) ∧
    (hitRegions 240 none
        [⟨"A", JSNum.num 100, "r"⟩, ⟨"B", JSNum.num 300, "b"⟩]).length =
      (slicesData 240 none
        [⟨"A", JSNum.num 100, "r"⟩, ⟨"B", JSNum.num 300, "b"⟩]).length :=
  ⟨rfl, (hit_region_per_segment 240 none
    [⟨"A", JSNum.num 100, "r"⟩, ⟨"B", JSNum.num 300, "b"⟩] [100, 300]
    rfl (by norm_num)).1⟩

/-- C9 counterexample: the radius bump is NOT the only visual emphasis
mechanism — selecting segment 0 also changes the rendered opacity of the
non-selected segment 1 from 1 to 0.6. -/
theorem opacity_counterexample :
    ((renderSlices 240 (some 0)
        [⟨"A", JSNum.num 100, "r"⟩, ⟨"B", JSNum.num 100, "b"⟩])[1]?).map
        (fun rs => rs.opacity) ≠
      ((renderSlices 240 none
        [⟨"A", JSNum.num 100, "r"⟩, ⟨"B", JSNum.num 100, "b"⟩])[1]?).map
        (fun rs => rs.opacity) := by
  norm_num [renderSlices, slicesData, slicesAux]
  exact fun h => nomatch h

/-- C9 (amended): the segment angles and touch areas are identical for
every pair of selection states, the selected slice (and only it) is
built with `isSelected = true` (hence the `+8` outer radius inside
`createPieSlice`), and in addition non-selected slices are rendered at
opacity 0.6 instead of 1 whenever any selection exists. -/
theorem selection_emphasis (size : ℚ) (data : List PieChartData)
    (sel sel' : Option ℕ) (j : ℕ) (s : SliceData)
    (hs : (slicesData size sel data)[j]? = some s) :
    (slicesData size sel data).map
        (fun x => (x.startAngle, x.endAngle, x.touchArea)) =
      (slicesData size sel' data).map
        (fun x => (x.startAngle, x.endAngle, x.touchArea)) ∧
    s.isSelected = decide (sel = some j) ∧
    s.pathData = createPieSlice (size / 2 - 10) ((size / 2 - 10) * (11 / 20))
      s.startAngle s.endAngle s.item.color s.isSelected ∧
    (renderSlices size sel data)[j]? =
      some ⟨s.pathData, s.item.color, "#fff", 2,
        if sel = none ∨ s.isSelected then 1 else 3 / 5⟩ := by
  have hs' := hs
  rw [slicesData] at hs'
  obtain ⟨h1, h2, h3, h4⟩ := slicesAux_get _ _ _ _ data 0 _ j s hs'
  refine ⟨?_, by simpa using h2, h3, ?_⟩
  · rw [slicesData, slicesData]
    exact slicesAux_sel_irrel _ _ _ _ _ _ _ _ _
  · rw [renderSlices, List.getElem?_map, hs, Option.map_some']

theorem selection_emphasis_witness :
    (slicesData 240 (some 0)
        [⟨"A", JSNum.num 100, "r"⟩, ⟨"B", JSNum.num 100, "b"⟩]).map
        (fun x => (x.startAngle, x.endAngle, x.touchArea)) =
      (slicesData 240 none
        [⟨"A", JSNum.num 100, "r"⟩, ⟨"B", JSNum.num 100, "b"⟩]).map
        (fun x => (x.startAngle, x.endAngle, x.touchArea)) :=
  (selection_emphasis 240 [⟨"A", JSNum.num 100, "r"⟩, ⟨"B", JSNum.num 100, "b"⟩]
    (some 0) none 1
    ⟨⟨"B", JSNum.num 100, "b"⟩, 1,
      [PathCmd.move ⟨110, JSNum.num 90⟩,
       PathCmd.arc 110 false true ⟨110, JSNum.num 270⟩,
       PathCmd.line ⟨121 / 2, JSNum.num 270⟩,
       PathCmd.arc (121 / 2) false false ⟨121 / 2, JSNum.num 90⟩,
       PathCmd.close],
      false, JSNum.num 90, JSNum.num 270, ⟨341 / 4, JSNum.num 180⟩⟩
    (by norm_num [slicesData, slicesAux, total, createPieSlice,
      getSliceTouchArea, JSNum.add, JSNum.sub, JSNum.neg, JSNum.mul,
      JSNum.div, JSNum.jsGe, JSNum.jsGt])).1

end PieChart
